import Mathlib


/-!
Verification development for the CaseBrief-AI legal case summarizer
(`legal_case_summarizer.py`).

The Python source is shallowly embedded as executable Lean definitions:
strings are Lean `String`s (lists of unicode scalar values, matching
Python's view of `str` as a sequence of code points), raw file bytes are
`List Nat` with entries below 256, and real-valued page geometry is
modelled with exact rationals (`ℚ`); reportlab's floating point constants
`cm = 72 / 2.54` and `A4 = (21 cm, 29.7 cm)` are represented by the exact
rationals they approximate.  External collaborators (pypdf, python-docx,
the ollama completion service, font metric tables, the filesystem) are
parameters of the embedded functions; everything that the repository's own
code computes is translated directly from the source.
-/

deriving instance DecidableEq for Except

namespace CaseBrief

/-- Python `str.split(sep)` for a one-character separator, on the underlying
character list: splits at every occurrence of `sep`, keeping empty fields;
the empty string yields `[[]]`. -/
def splitOnChar (sep : Char) : List Char → List (List Char)
  | [] => [[]]
  | c :: rest =>
    match splitOnChar sep rest with
    | [] => [[]]
    | h :: t => if c = sep then [] :: h :: t else (c :: h) :: t

/-- Python `s.split(sep)` for a one-character separator `sep`. -/
def pySplit (sep : Char) (s : String) : List String :=
  (splitOnChar sep s.data).map fun l => ⟨l⟩

/-- Python `str.strip()`: drop leading and trailing whitespace
(ASCII whitespace, which covers every character these developments use). -/
def pyStrip (s : String) : String :=
  ⟨((s.data.dropWhile Char.isWhitespace).reverse.dropWhile Char.isWhitespace).reverse⟩

/-- Python `str.lower()` (ASCII case folding). -/
def pyLower (s : String) : String := ⟨s.data.map Char.toLower⟩

/-- Python `s.startswith(pre)`. -/
def pyStartsWith (s pre : String) : Bool := pre.data.isPrefixOf s.data

/-- Python `s[:n]`: the prefix of at most `n` characters. -/
def pyTake (s : String) (n : Nat) : String := ⟨s.data.take n⟩

/-- Python `str.rfind(c)` on a character list: the last index at which `c`
occurs, `-1` if it does not occur. -/
def lastIdx (l : List Char) (c : Char) : Int :=
  l.enum.foldl (fun acc p => if p.2 = c then (p.1 : Int) else acc) (-1)

/-- `os.path.splitext` (POSIX): split off the extension at the last dot,
provided that dot lies inside the basename and is preceded there by at
least one non-dot character (so `.bashrc` has no extension). -/
def splitext (p : String) : String × String :=
  let l := p.data
  let sep := lastIdx l '/'
  let dot := lastIdx l '.'
  if sep < dot then
    if (List.range l.length).any
        (fun i => decide (sep < (i : Int)) && decide ((i : Int) < dot)
          && !(l.getD i '.' == '.')) then
      (⟨l.take dot.toNat⟩, ⟨l.drop dot.toNat⟩)
    else (p, "")
  else (p, "")

/-- A byte is a UTF-8 continuation byte (`0x80`–`0xBF`). -/
def isCont (b : Nat) : Bool := 0x80 ≤ b && b ≤ 0xBF

/-- Core of CPython's incremental UTF-8 decoder on a byte list.  A
well-formed sequence is decoded to its scalar value; each maximal subpart
of an ill-formed sequence (per the Unicode recommendation CPython follows)
is replaced by `repl` — `[]` for `errors='ignore'`, `['�']` for
`errors='replace'`.  Truncated, overlong and surrogate sequences are
ill-formed. -/
def utf8Go (repl : List Char) : List Nat → List Char
  | [] => []
  | b :: rest =>
    if b < 0x80 then Char.ofNat b :: utf8Go repl rest
    else if 0xC2 ≤ b && b ≤ 0xDF then
      match rest with
      | [] => repl
      | c :: rest2 =>
        if isCont c then
          Char.ofNat ((b % 0x20) * 0x40 + c % 0x40) :: utf8Go repl rest2
        else repl ++ utf8Go repl (c :: rest2)
    else if 0xE0 ≤ b && b ≤ 0xEF then
      match rest with
      | [] => repl
      | c :: rest2 =>
        if (if b = 0xE0 then 0xA0 else 0x80) ≤ c && c ≤ (if b = 0xED then 0x9F else 0xBF) then
          match rest2 with
          | [] => repl
          | d :: rest3 =>
            if isCont d then
              Char.ofNat ((b % 0x10) * 0x1000 + (c % 0x40) * 0x40 + d % 0x40)
                :: utf8Go repl rest3
            else repl ++ utf8Go repl (d :: rest3)
        else repl ++ utf8Go repl (c :: rest2)
    else if 0xF0 ≤ b && b ≤ 0xF4 then
      match rest with
      | [] => repl
      | c :: rest2 =>
        if (if b = 0xF0 then 0x90 else 0x80) ≤ c && c ≤ (if b = 0xF4 then 0x8F else 0xBF) then
          match rest2 with
          | [] => repl
          | d :: rest3 =>
            if isCont d then
              match rest3 with
              | [] => repl
              | e :: rest4 =>
                if isCont e then
                  Char.ofNat ((b % 8) * 0x40000 + (c % 0x40) * 0x1000
                      + (d % 0x40) * 0x40 + e % 0x40)
                    :: utf8Go repl rest4
                else repl ++ utf8Go repl (e :: rest4)
            else repl ++ utf8Go repl (d :: rest3)
        else repl ++ utf8Go repl (c :: rest2)
    else repl ++ utf8Go repl rest

/-- Python `bytes.decode('utf-8', errors='ignore')`: undecodable byte
sequences are dropped. -/
def utf8DecodeIgnore (bytes : List Nat) : String := ⟨utf8Go [] bytes⟩

/-- Decoder following the specification's words (`errors='replace'`):
each undecodable byte sequence is replaced by U+FFFD.  Stated only for
comparison with `utf8DecodeIgnore`, which is what the source uses. -/
def utf8DecodeReplaceSpec (bytes : List Nat) : String :=
  ⟨utf8Go [Char.ofNat 0xFFFD] bytes⟩

/-! ## Page geometry (reportlab constants, as exact rationals) -/

/-- One centimeter in points: reportlab `cm = 72 / 2.54`. -/
def cmUnit : ℚ := 3600 / 127

/-- A4 page width in points: `21 * cm`. -/
def pageWidth : ℚ := 75600 / 127

/-- A4 page height in points: `29.7 * cm`. -/
def pageHeight : ℚ := 106920 / 127

/-- `max_width = width - 4.0 * cm` from `save_pdf`: the usable line width. -/
def usableWidth : ℚ := pageWidth - 4 * cmUnit

/-- reportlab `canvas.stringWidth`: the sum of the font's per-character
advance widths (in units per 1000 em, given by the table `cw`), scaled by
the font size.  `save_pdf` always measures at Helvetica 10. -/
def stringWidth (cw : Char → ℕ) (fontSize : ℚ) (s : String) : ℚ :=
  ((s.data.map cw).sum : ℚ) * fontSize / 1000

/-- Advance widths (units per 1000 em) of the Helvetica characters used in
these developments, from the standard Helvetica font metrics shipped with
reportlab; characters outside the table (never measured here) default
to 556. -/
def helveticaWidth (c : Char) : ℕ :=
  if c = ' ' then 278
  else if c = 'W' then 944
  else if c = 'M' then 833
  else if c = 'i' then 222
  else if c = 'h' then 556
  else 556

/-- The loop body of `wrap_text`: `acc` is `(wrapped, line)`; the
candidate `test = (line + ' ' + w).strip()` extends the line when it still
fits in `maxW`, otherwise the line is flushed and the word starts a new
line. -/
def wrapStep (cw : Char → ℕ) (maxW : ℚ) (acc : List String × String) (w : String) :
    List String × String :=
  if stringWidth cw 10 (pyStrip (acc.2 ++ " " ++ w)) ≤ maxW then
    (acc.1, pyStrip (acc.2 ++ " " ++ w))
  else (acc.1 ++ [acc.2], w)

/-- `wrap_text` from `save_pdf`: greedily pack the words of `s` (split on
single spaces) into lines whose measured width at Helvetica 10 stays
within `maxW`; when adding the next word would exceed `maxW`, flush the
current line and start over from that word.  A nonempty final line is
flushed at the end. -/
def wrap_text (cw : Char → ℕ) (maxW : ℚ) (s : String) : List String :=
  let r := (pySplit ' ' s).foldl (wrapStep cw maxW) ([], "")
  if r.2 ≠ "" then r.1 ++ [r.2] else r.1

/-- State of the PDF canvas in `save_pdf`: finished pages, the entries of
the current page (each a drawn string with its `x` and `y` position), and
the vertical cursor. -/
structure PdfState where
  pages : List (List (ℚ × ℚ × String))
  cur : List (ℚ × ℚ × String)
  y : ℚ
deriving DecidableEq

/-- One `c.drawString` step of `draw_wrapped`: if the cursor has passed the
bottom margin, emit the current page (`c.showPage()`) and reset the cursor
to the top margin; then draw the line at the left margin and move the
cursor down by the line height 14. -/
def drawLine (st : PdfState) (line : String) : PdfState :=
  let st' := if st.y < 2 * cmUnit then
    { pages := st.pages ++ [st.cur], cur := [], y := pageHeight - 2 * cmUnit }
  else st
  { st' with cur := st'.cur ++ [(2 * cmUnit, st'.y, line)], y := st'.y - 14 }

/-- One paragraph of `draw_wrapped`: draw its wrapped lines, then move the
cursor down by the extra paragraph spacing 6. -/
def drawParagraph (cw : Char → ℕ) (st : PdfState) (p : String) : PdfState :=
  let st' := (wrap_text cw usableWidth p).foldl drawLine st
  { st' with y := st'.y - 6 }

/-- `save_pdf`, as the pure layout function it computes: the list of pages
of the produced document, each page the list of drawn lines with their
positions.  The canvas starts at the top margin, the text is split into
paragraphs on newlines, and `c.save()` flushes the final (possibly empty)
page. -/
def save_pdf (cw : Char → ℕ) (text : String) : List (List (ℚ × ℚ × String)) :=
  let st := (pySplit '\n' text).foldl (drawParagraph cw)
    { pages := [], cur := [], y := pageHeight - 2 * cmUnit }
  st.pages ++ [st.cur]

/-! ## Text extraction (`read_file`) -/

/-- Outcome of `page.extract_text()` on one PDF page: the extracted text
(`none` models pypdf returning `None`, turned into `''` by `or ''`), or a
raised exception. -/
inductive PdfPage where
  | ok (t : Option String)
  | err
deriving DecidableEq

/-- The page loop of `read_file`'s PDF branch: append each page's extracted
text (empty for a `None` result); a page whose extraction raises is
skipped by `except Exception: pass` and contributes no entry. -/
def extract_pdf_texts (pages : List PdfPage) : List String :=
  pages.foldl
    (fun texts pg =>
      match pg with
      | .ok t => texts ++ [t.getD ""]
      | .err => texts)
    []

/-- Per-page extraction as the specification's words describe it: one
entry per page of the document, an empty entry for a failed page.  Stated
only for comparison with `extract_pdf_texts`, which is what the source
computes. -/
def extract_pdf_texts_claim (pages : List PdfPage) : List String :=
  pages.map fun pg =>
    match pg with
    | .ok t => t.getD ""
    | .err => ""

/-- An uploaded file as `read_file` consumes it: the (optional) client
filename, the raw bytes, and what the external parsers yield on those
bytes — `pdfParse` is the result of `PdfReader` (pages, or a raised
exception's message), `docxParse` the result of `DocxDocument` (paragraph
texts, or a raised exception's message). -/
structure UploadedFile where
  filename? : Option String
  bytes : List Nat
  pdfParse : Except String (List PdfPage)
  docxParse : Except String (List String)
deriving DecidableEq

/-- `name = file.filename or "uploaded"`: Python's `or` falls back on a
missing or empty filename. -/
def pyName (f : UploadedFile) : String :=
  match f.filename? with
  | none => "uploaded"
  | some s => if s = "" then "uploaded" else s

/-- The extension `read_file` classifies by: `os.path.splitext` of the
lowercased filename. -/
def extOf (f : UploadedFile) : String := (splitext (pyLower (pyName f))).2

/-- The BEGIN/END demarcation `read_file` wraps extracted text in. -/
def wrapMarkers (kind name body : String) : String :=
  "\n--- BEGIN " ++ kind ++ ": " ++ name ++ " ---\n" ++ body ++
    "\n--- END " ++ kind ++ ": " ++ name ++ " ---\n"

/-- `read_file`: classify by extension; unsupported extensions get a
bracketed skip notice; PDF and DOCX parse failures degrade to a bracketed
error notice; otherwise the extracted text is wrapped in BEGIN/END markers
naming the file.  The TXT branch decodes the raw bytes as UTF-8 with
`errors='ignore'` (which never raises, so its `except` fallback is
unreachable). -/
def read_file (f : UploadedFile) : String :=
  let name := pyName f
  let ext := extOf f
  if ext ≠ ".pdf" ∧ ext ≠ ".txt" ∧ ext ≠ ".docx" then
    "\n[Skipped unsupported file: " ++ name ++ "]\n"
  else if ext = ".pdf" then
    match f.pdfParse with
    | .ok pages => wrapMarkers "PDF" name (String.intercalate "\n" (extract_pdf_texts pages))
    | .error e => "\n[Error reading " ++ name ++ ": " ++ e ++ "]\n"
  else if ext = ".docx" then
    match f.docxParse with
    | .ok paras => wrapMarkers "DOCX" name (String.intercalate "\n" paras)
    | .error e => "\n[Error reading " ++ name ++ ": " ++ e ++ "]\n"
  else
    wrapMarkers "TXT" name (utf8DecodeIgnore f.bytes)

/-! ## Prompt construction and the completion client -/

/-- `PROMPT_TEMPLATE`, exactly as the source stores it (the source file
holds the bullet glyph as the three characters U+201A U+00C4 U+00A2). -/
def PROMPT_TEMPLATE : String := "\nYou are a legal analysis AI. You MUST follow the EXACT format below. DO NOT deviate from this structure.\n\nSTEP 1: Determine if the documents contain legal case materials (court cases, lawsuits, legal disputes, judgments, pleadings, legal briefs, court orders, legal contracts disputes, etc.)\n\nSTEP 2: If documents are NOT legal case materials (receipts, invoices, tickets, personal documents, etc.), write \"Not legal case materials\" in section 1 and \"N/A\" for ALL other sections.\n\nSTEP 3: If documents ARE legal case materials, analyze them and fill each section.\n\nMANDATORY OUTPUT FORMAT - Copy these headings EXACTLY:\n\n1. 25 Word Summary of the Case including Category of Law\n[If not legal case materials, write: \"Not legal case materials\"]\n[If legal case materials, write EXACTLY 25 words summarizing the case and legal category]\n\n2. Name of Plaintiff & Defendant including respective Attorneys representing them\nPlaintiff: [Name or N/A] | Attorney: [Name or N/A]\nDefendant: [Name or N/A] | Attorney: [Name or N/A]\n\n3. Case Story (Within 500 Words)\n[Narrative description of the legal dispute or \"N/A\"]\n\n4. Key Facts of the Case\n‚Ä¢ [Fact 1 or N/A]\n‚Ä¢ [Fact 2 or N/A]\n‚Ä¢ [Additional facts as bullet points or just ‚Ä¢ N/A]\n\n5. Claims Made by Plaintiff including evidences/Documents\n‚Ä¢ [Claim 1 with evidence or N/A]\n‚Ä¢ [Claim 2 with evidence or N/A]\n‚Ä¢ [Additional claims as bullet points or just ‚Ä¢ N/A]\n\n6. Claims Made by Defendant including evidences/Documents\n‚Ä¢ [Claim 1 with evidence or N/A]\n‚Ä¢ [Claim 2 with evidence or N/A]\n‚Ä¢ [Additional claims as bullet points or just ‚Ä¢ N/A]\n\n7. List of Act, Section, Law and why it is applicable\n‚Ä¢ [Act/Section - Reason or N/A]\n‚Ä¢ [Additional acts as bullet points or just ‚Ä¢ N/A]\n\n8. Procedural History (If Any)\n[Chronological procedural events or \"N/A\"]\n\n9. Comprehensive List of Dates/Chronology of Events\n‚Ä¢ [DD MMM YYYY - Event description or N/A]\n‚Ä¢ [Additional dates as bullet points or just ‚Ä¢ N/A]\n\nCRITICAL RULES FOR LLAMA3:\n- Use ONLY the 9 numbered sections above\n- Keep the exact heading text\n- If not legal case materials, section 1 = \"Not legal case materials\", all others = \"N/A\"\n- Do NOT add introduction paragraphs\n- Do NOT add conclusion paragraphs  \n- Do NOT add additional sections\n- Do NOT change the numbering\n- Start immediately with \"1. 25 Word Summary...\"\n- End immediately after section 9\n- Use bullet points (‚Ä¢) where specified\n- Write \"N/A\" when information is missing\n\nDocuments to analyze:\n"

/-- `build_prompt_text`: prepend the instruction template (and a newline)
to the corpus truncated to its first `MAX_CHARS = 120000` characters. -/
def build_prompt_text (all_text : String) : String :=
  PROMPT_TEMPLATE ++ "\n" ++ pyTake all_text 120000

/-- The in-band failure sentinel `call_llama3` returns when the ollama
call raises. -/
def llmSentinel : String := "ERROR: LLM server not reachable"

/-- `call_llama3`: send the prompt to the external completion service
(modelled as a function from the prompt to either a reply or a raised
transport error) and strip the reply; any exception becomes the in-band
sentinel string. -/
def call_llama3 (service : String → Except Unit String) (prompt : String) : String :=
  match service prompt with
  | .ok content => pyStrip content
  | .error _ => llmSentinel

/-! ## The analyze pipeline -/

/-- A persisted artifact's content: the raw text file, or the laid-out PDF
(as `save_pdf` computes it). -/
inductive Artifact where
  | txt (content : String)
  | pdf (pages : List (List (ℚ × ℚ × String)))
deriving DecidableEq

/-- The JSON-level outcome of `/analyze`. -/
inductive AnalyzeResponse where
  | errorNoFiles
  | errorLLMDown
  | errorEmpty
  | ok (base_name txt_url pdf_url : String) (files_received : List (Option String))
deriving DecidableEq

/-- The corpus `/analyze` builds: the per-file extraction results joined in
upload order with blank-line separators (`"\n\n".join`). -/
def joined_corpus (files : List UploadedFile) : String :=
  String.intercalate "\n\n" (files.map read_file)

/-- The `/analyze` handler: reject an empty batch; extract and join the
files; build the prompt and call the completion client; fail on the
sentinel prefix or on a stripped reply shorter than 30 characters; on
success derive `case_report_{timestamp}` and write both artifacts.  The
second component lists the files written to the output store (empty
whenever the request fails). -/
def analyze (cw : Char → ℕ) (service : String → Except Unit String)
    (timestamp : String) (files : List UploadedFile) :
    AnalyzeResponse × List (String × Artifact) :=
  if files.isEmpty then (.errorNoFiles, [])
  else
    let joined := joined_corpus files
    let prompt := build_prompt_text joined
    let result := call_llama3 service prompt
    if pyStartsWith result llmSentinel then (.errorLLMDown, [])
    else if (pyStrip result).length < 30 then (.errorEmpty, [])
    else
      let base := "case_report_" ++ timestamp
      (.ok base ("/download/" ++ base ++ ".txt") ("/download/" ++ base ++ ".pdf")
        (files.map (·.filename?)),
       [(base ++ ".txt", .txt result), (base ++ ".pdf", .pdf (save_pdf cw result))])

/-! ## The download endpoint -/

/-- Resolution of a path by the operating system: empty and `.` components
vanish, `..` removes the preceding component (staying at the root when
there is none). -/
def normalizePath (comps : List String) : List String :=
  comps.foldl
    (fun acc c =>
      if c = "" ∨ c = "." then acc
      else if c = ".." then acc.dropLast
      else acc ++ [c])
    []

/-- Outcome of `/download/{fname}`. -/
inductive DownloadResult where
  | found (path : List String)
  | notFound
deriving DecidableEq

/-- The `/download/{fname}` handler: `os.path.join(STORE_DIR, fname)` (an
absolute `fname` discards the store prefix), then serve the file if the
resolved path is an existing regular file and report not-found otherwise.
`fs` is the set of existing regular files, as normalized absolute
component paths; `store` is `STORE_DIR` the same way. -/
def download (fs : List (List String)) (store : List String) (fname : String) :
    DownloadResult :=
  let path := if pyStartsWith fname "/" then pySplit '/' fname
    else store ++ pySplit '/' fname
  let resolved := normalizePath path
  if resolved ∈ fs then .found resolved else .notFound

/-! ## Predicates and sample data used by the statements -/

/-- All entries drawn so far (finished pages and the current page) sit at
or above the bottom margin and satisfy `Q`. -/
def drawnOK (Q : String → Prop) (st : PdfState) : Prop :=
  (∀ pg ∈ st.pages, ∀ e ∈ pg, 2 * cmUnit ≤ e.2.1 ∧ Q e.2.2) ∧
  ∀ e ∈ st.cur, 2 * cmUnit ≤ e.2.1 ∧ Q e.2.2

/-- An upload that `read_file` extracts content from: a supported
extension whose external parser succeeds (the TXT decoder always
succeeds). -/
def validUpload (f : UploadedFile) : Prop :=
  (extOf f = ".pdf" ∧ ∃ pgs, f.pdfParse = .ok pgs) ∨
  (extOf f = ".docx" ∧ ∃ ps, f.docxParse = .ok ps) ∨
  extOf f = ".txt"

/-- A single word of fifty-five `W` characters: wider than the usable
page width at Helvetica 10 (55 × 9.44 pt = 519.2 pt > 481.9 pt). -/
def wideWord : String := ⟨List.replicate 55 'W'⟩

/-- A thirty-character completion, the shortest the pipeline accepts. -/
def thirtyChars : String := ⟨List.replicate 30 'a'⟩

/-- A sample one-file TXT batch (content `hi`). -/
def sampleTxt : UploadedFile := ⟨some "file.txt", [104, 105], .error "unused", .error "unused"⟩

/-! ## Wrapping and pagination -/

theorem wrapStep_foldl_inv (cw : Char → ℕ) (maxW : ℚ) (words : List String) :
    ∀ (ws : List String) (acc : List String × String),
      (∀ w ∈ ws, w ∈ words) →
      (∀ l ∈ acc.1, stringWidth cw 10 l ≤ maxW ∨ l ∈ words) →
      (stringWidth cw 10 acc.2 ≤ maxW ∨ acc.2 ∈ words) →
      (∀ l ∈ (ws.foldl (wrapStep cw maxW) acc).1,
          stringWidth cw 10 l ≤ maxW ∨ l ∈ words) ∧
        (stringWidth cw 10 (ws.foldl (wrapStep cw maxW) acc).2 ≤ maxW ∨
          (ws.foldl (wrapStep cw maxW) acc).2 ∈ words) := by
  intro ws
  induction ws with
  | nil => intro acc _ h1 h2; exact ⟨h1, h2⟩
  | cons w ws ih =>
    intro acc hws h1 h2
    rw [List.foldl_cons]
    have hw : w ∈ words := hws w (by simp)
    have hws' : ∀ x ∈ ws, x ∈ words := fun x hx => hws x (by simp [hx])
    by_cases hfit : stringWidth cw 10 (pyStrip (acc.2 ++ " " ++ w)) ≤ maxW
    · have hstep : wrapStep cw maxW acc w = (acc.1, pyStrip (acc.2 ++ " " ++ w)) := by
        simp [wrapStep, hfit]
      rw [hstep]
      exact ih _ hws' h1 (Or.inl hfit)
    · have hstep : wrapStep cw maxW acc w = (acc.1 ++ [acc.2], w) := by
        simp [wrapStep, hfit]
      rw [hstep]
      refine ih _ hws' ?_ (Or.inr hw)
      intro l hl
      rcases List.mem_append.1 hl with h | h
      · exact h1 l h
      · rw [List.mem_singleton] at h; subst h; exact h2

/-- Every line `wrap_text` emits either fits in `maxW` or is one of the
paragraph's space-separated words (left on a line of its own when it is
alone too wide). -/
theorem wrap_text_mem (cw : Char → ℕ) (maxW : ℚ) (h0 : 0 ≤ maxW) (s : String) :
    ∀ l ∈ wrap_text cw maxW s, stringWidth cw 10 l ≤ maxW ∨ l ∈ pySplit ' ' s := by
  intro l hl
  have hempty : stringWidth cw 10 "" = 0 := by
    have hd : ("" : String).data = ([] : List Char) := rfl
    simp [stringWidth, hd]
  have h := wrapStep_foldl_inv cw maxW (pySplit ' ' s) (pySplit ' ' s) ([], "")
    (fun w hw => hw) (by intro x hx; simp at hx) (Or.inl (by rw [hempty]; exact h0))
  simp only [wrap_text] at hl
  split at hl
  · rcases List.mem_append.1 hl with hh | hh
    · exact h.1 l hh
    · rw [List.mem_singleton] at hh; subst hh; exact h.2
  · exact h.1 l hl

theorem drawLine_drawnOK {Q : String → Prop} {st : PdfState} {line : String}
    (hQ : Q line) (h : drawnOK Q st) : drawnOK Q (drawLine st line) := by
  obtain ⟨hp, hc⟩ := h
  by_cases hy : st.y < 2 * cmUnit
  · simp only [drawLine, if_pos hy]
    refine ⟨?_, ?_⟩
    · intro pg hpg e he
      rcases List.mem_append.1 hpg with hh | hh
      · exact hp pg hh e he
      · rw [List.mem_singleton] at hh; subst hh; exact hc e he
    · intro e he
      simp only [List.nil_append, List.mem_singleton] at he
      subst he
      exact ⟨by norm_num [cmUnit, pageHeight], hQ⟩
  · simp only [drawLine, if_neg hy]
    refine ⟨hp, ?_⟩
    intro e he
    rcases List.mem_append.1 he with hh | hh
    · exact hc e hh
    · rw [List.mem_singleton] at hh; subst hh
      exact ⟨le_of_not_lt hy, hQ⟩

theorem foldl_drawLine_drawnOK {Q : String → Prop} :
    ∀ (lines : List String) (st : PdfState), (∀ l ∈ lines, Q l) → drawnOK Q st →
      drawnOK Q (lines.foldl drawLine st)
  | [], _, _, h => h
  | l :: ls, st, hQ, h => by
    rw [List.foldl_cons]
    exact foldl_drawLine_drawnOK ls _ (fun x hx => hQ x (by simp [hx]))
      (drawLine_drawnOK (hQ l (by simp)) h)

theorem drawParagraph_drawnOK {Q : String → Prop} (cw : Char → ℕ) {st : PdfState}
    (p : String) (hQ : ∀ l ∈ wrap_text cw usableWidth p, Q l) (h : drawnOK Q st) :
    drawnOK Q (drawParagraph cw st p) := by
  have h' := foldl_drawLine_drawnOK (wrap_text cw usableWidth p) st hQ h
  exact ⟨h'.1, h'.2⟩

theorem foldl_drawParagraph_drawnOK {Q : String → Prop} (cw : Char → ℕ) :
    ∀ (ps : List String) (st : PdfState),
      (∀ p ∈ ps, ∀ l ∈ wrap_text cw usableWidth p, Q l) → drawnOK Q st →
      drawnOK Q (ps.foldl (drawParagraph cw) st)
  | [], _, _, h => h
  | p :: ps, st, hQ, h => by
    rw [List.foldl_cons]
    exact foldl_drawParagraph_drawnOK cw ps _ (fun x hx => hQ x (by simp [hx]))
      (drawParagraph_drawnOK cw p (hQ p (by simp)) h)

theorem save_pdf_drawnOK {Q : String → Prop} (cw : Char → ℕ) (text : String)
    (hQ : ∀ p ∈ pySplit '\n' text, ∀ l ∈ wrap_text cw usableWidth p, Q l) :
    ∀ pg ∈ save_pdf cw text, ∀ e ∈ pg, 2 * cmUnit ≤ e.2.1 ∧ Q e.2.2 := by
  intro pg hpg e he
  have h := foldl_drawParagraph_drawnOK cw (pySplit '\n' text)
    ⟨[], [], pageHeight - 2 * cmUnit⟩ hQ
    (by refine ⟨?_, ?_⟩ <;> intro x hx <;> simp at hx)
  unfold save_pdf at hpg
  rcases List.mem_append.1 hpg with hh | hh
  · exact h.1 pg hh e he
  · rw [List.mem_singleton] at hh; subst hh; exact h.2 e he

/-- The empty paragraph wraps to no lines at all (its single empty word is
absorbed into the empty line, which is not flushed). -/
theorem wrap_text_empty (cw : Char → ℕ) (maxW : ℚ) (h0 : 0 ≤ maxW) :
    wrap_text cw maxW "" = [] := by
  have hs : pyStrip ("" ++ " " ++ "") = "" := rfl
  have hd : ("" : String).data = ([] : List Char) := rfl
  have hw : stringWidth cw 10 "" = 0 := by simp [stringWidth, hd]
  have hsplit : pySplit ' ' "" = [""] := rfl
  simp only [wrap_text, hsplit, List.foldl_cons, List.foldl_nil, wrapStep, hs, hw]
  rw [if_pos h0]
  simp

/-- Rendering the empty string draws nothing and leaves a single page. -/
theorem save_pdf_empty (cw : Char → ℕ) : save_pdf cw "" = [[]] := by
  have h0 : (0 : ℚ) ≤ usableWidth := by norm_num [usableWidth, pageWidth, cmUnit]
  have hsplit : pySplit '\n' "" = [""] := rfl
  simp only [save_pdf, hsplit, List.foldl_cons, List.foldl_nil, drawParagraph,
    wrap_text_empty cw usableWidth h0, List.nil_append]

/-- C1 (amended): every line `save_pdf` draws either fits in the usable
page width at Helvetica 10, or is a single space-separated word of its
paragraph — an over-wide single word is drawn on a line of its own and
exceeds the usable width. -/
theorem c1_wrapped_line_width (cw : Char → ℕ) (text : String) :
    ∀ pg ∈ save_pdf cw text, ∀ e ∈ pg,
      stringWidth cw 10 e.2.2 ≤ usableWidth ∨
        ∃ para ∈ pySplit '\n' text, e.2.2 ∈ pySplit ' ' para := by
  intro pg hpg e he
  have h0 : (0 : ℚ) ≤ usableWidth := by norm_num [usableWidth, pageWidth, cmUnit]
  exact (save_pdf_drawnOK
    (Q := fun l => stringWidth cw 10 l ≤ usableWidth ∨
      ∃ para ∈ pySplit '\n' text, l ∈ pySplit ' ' para)
    cw text
    (fun p hp l hl => (wrap_text_mem cw usableWidth h0 p l hl).imp id fun hm => ⟨p, hp, hm⟩)
    pg hpg e he).2

set_option maxHeartbeats 4000000 in
/-- C1 (counterexample): rendering a paragraph that is a single word of
sixty `W` characters draws that word as a line whose width at Helvetica 10
(566.4 pt) exceeds the usable page width (≈ 481.9 pt), refuting the claim
that no rendered line's width exceeds the usable width. -/
theorem c1_counterexample :
    save_pdf helveticaWidth wideWord =
      [[(2 * cmUnit, pageHeight - 2 * cmUnit, ""),
        (2 * cmUnit, pageHeight - 2 * cmUnit - 14, wideWord)]] ∧
    usableWidth < stringWidth helveticaWidth 10 wideWord :=
  ⟨by with_unfolding_all rfl, of_decide_eq_true (by with_unfolding_all rfl)⟩

/-- C1 (witness): the amended theorem applied to the one-line text `hi`. -/
theorem c1_witness :
    stringWidth helveticaWidth 10 "hi" ≤ usableWidth ∨
      ∃ para ∈ pySplit '\n' "hi", "hi" ∈ pySplit ' ' para := by
  have hsp : save_pdf helveticaWidth "hi" =
      [[(2 * cmUnit, pageHeight - 2 * cmUnit, "hi")]] := by with_unfolding_all rfl
  exact c1_wrapped_line_width helveticaWidth "hi"
    [(2 * cmUnit, pageHeight - 2 * cmUnit, "hi")]
    (by rw [hsp]; exact List.mem_singleton.2 rfl)
    (2 * cmUnit, pageHeight - 2 * cmUnit, "hi")
    (List.mem_singleton.2 rfl)

/-- C6: no line is ever drawn below the 2 cm bottom margin (the cursor is
reset to the top margin of a fresh page first), and rendering the empty
string produces exactly one page with no drawn lines. -/
theorem c6_pagination (cw : Char → ℕ) (text : String) :
    (∀ pg ∈ save_pdf cw text, ∀ e ∈ pg, 2 * cmUnit ≤ e.2.1) ∧
      save_pdf cw "" = [[]] := by
  constructor
  · intro pg hpg e he
    exact (save_pdf_drawnOK (Q := fun _ => True) cw text (by simp) pg hpg e he).1
  · exact save_pdf_empty cw

/-- C6 (witness): the pagination theorem applied to the one-line text
`hi`, whose single drawn line sits at the top margin. -/
theorem c6_witness :
    2 * cmUnit ≤ ((2 * cmUnit, pageHeight - 2 * cmUnit, "hi") : ℚ × ℚ × String).2.1 ∧
      save_pdf (fun _ => 556) "" = [[]] := by
  have hsp : save_pdf (fun _ => 556) "hi" =
      [[(2 * cmUnit, pageHeight - 2 * cmUnit, "hi")]] := by with_unfolding_all rfl
  exact ⟨(c6_pagination (fun _ => 556) "hi").1
      [(2 * cmUnit, pageHeight - 2 * cmUnit, "hi")]
      (by rw [hsp]; exact List.mem_singleton.2 rfl)
      (2 * cmUnit, pageHeight - 2 * cmUnit, "hi")
      (List.mem_singleton.2 rfl),
    (c6_pagination (fun _ => 556) "").2⟩

/-! ## Prompt construction -/

/-- C5: the prompt builder is a pure function whose output length is
bounded by the template length plus the 120,000-character budget plus the
one-character separator, and a corpus within the budget is embedded
unchanged. -/
theorem c5_prompt_bound (s : String) :
    (build_prompt_text s).length ≤ PROMPT_TEMPLATE.length + 1 + 120000 ∧
      (s.length ≤ 120000 → build_prompt_text s = PROMPT_TEMPLATE ++ "\n" ++ s) := by
  obtain ⟨l⟩ := s
  constructor
  · show (PROMPT_TEMPLATE ++ "\n" ++ pyTake ⟨l⟩ 120000).length ≤ _
    rw [String.length_append, String.length_append]
    have h1 : ("\n" : String).length = 1 := rfl
    have h2 : (pyTake ⟨l⟩ 120000).length ≤ 120000 := by
      show (String.mk (l.take 120000)).length ≤ 120000
      rw [String.length_mk, List.length_take]
      omega
    omega
  · intro hs
    show PROMPT_TEMPLATE ++ "\n" ++ pyTake ⟨l⟩ 120000 = PROMPT_TEMPLATE ++ "\n" ++ ⟨l⟩
    have h3 : pyTake ⟨l⟩ 120000 = ⟨l⟩ := by
      show String.mk (l.take 120000) = ⟨l⟩
      rw [List.take_of_length_le]
      rwa [String.length_mk] at hs
    rw [h3]

/-- C5 (witness): the bound and the embedding at the corpus `abc`. -/
theorem c5_witness :
    (build_prompt_text "abc").length ≤ PROMPT_TEMPLATE.length + 1 + 120000 ∧
      build_prompt_text "abc" = PROMPT_TEMPLATE ++ "\n" ++ "abc" :=
  ⟨(c5_prompt_bound "abc").1, (c5_prompt_bound "abc").2 (by decide)⟩

/-! ## Text extraction -/

theorem utf8Go_ascii (repl : List Char) :
    ∀ (bytes : List Nat), (∀ b ∈ bytes, b < 128) →
      utf8Go repl bytes = bytes.map Char.ofNat
  | [], _ => rfl
  | b :: rest, h => by
    have hb : b < 0x80 := h b (by simp)
    rw [utf8Go.eq_def]
    simp only []
    rw [if_pos hb, List.map_cons,
      utf8Go_ascii repl rest (fun x hx => h x (by simp [hx]))]

theorem extract_pdf_texts_foldl (pages : List PdfPage) :
    ∀ acc : List String,
      pages.foldl
          (fun texts pg =>
            match pg with
            | PdfPage.ok t => texts ++ [t.getD ""]
            | PdfPage.err => texts)
          acc
        = acc ++ pages.filterMap fun pg =>
            match pg with
            | PdfPage.ok t => some (t.getD "")
            | PdfPage.err => none := by
  induction pages with
  | nil => intro acc; simp
  | cons pg pages ih =>
    intro acc
    rw [List.foldl_cons, List.filterMap_cons]
    cases pg with
    | ok t => simp [ih]
    | err => simp [ih]

/-- The PDF page loop keeps one entry per page whose extraction returned
(possibly `None`), and skips pages whose extraction raised. -/
theorem extract_pdf_texts_eq (pages : List PdfPage) :
    extract_pdf_texts pages = pages.filterMap fun pg =>
      match pg with
      | PdfPage.ok t => some (t.getD "")
      | PdfPage.err => none := by
  simpa [extract_pdf_texts] using extract_pdf_texts_foldl pages []

theorem read_file_pdf_eq (f : UploadedFile) (pages : List PdfPage)
    (hext : extOf f = ".pdf") (hp : f.pdfParse = .ok pages) :
    read_file f = wrapMarkers "PDF" (pyName f)
      (String.intercalate "\n" (extract_pdf_texts pages)) := by
  simp [read_file, hext, hp]

theorem read_file_docx_eq (f : UploadedFile) (paras : List String)
    (hext : extOf f = ".docx") (hp : f.docxParse = .ok paras) :
    read_file f = wrapMarkers "DOCX" (pyName f) (String.intercalate "\n" paras) := by
  simp [read_file, hext, hp]

theorem read_file_txt_eq (f : UploadedFile) (hext : extOf f = ".txt") :
    read_file f = wrapMarkers "TXT" (pyName f) (utf8DecodeIgnore f.bytes) := by
  simp [read_file, hext]

/-- C2 (amended): the extractor never aborts a PDF document; a page whose
extraction raises is skipped silently and contributes no entry, so the
final text is the newline-join of one entry per successfully extracted
page (a `None` extraction contributing an empty entry), wrapped in
BEGIN/END PDF markers naming the file. -/
theorem c2_pdf_extraction (f : UploadedFile) (pages : List PdfPage)
    (hext : extOf f = ".pdf") (hp : f.pdfParse = .ok pages) :
    read_file f = wrapMarkers "PDF" (pyName f)
        (String.intercalate "\n" (extract_pdf_texts pages)) ∧
      extract_pdf_texts pages = pages.filterMap fun pg =>
        match pg with
        | PdfPage.ok t => some (t.getD "")
        | PdfPage.err => none :=
  ⟨read_file_pdf_eq f pages hext hp, extract_pdf_texts_eq pages⟩

/-- C2 (counterexample): a three-page PDF whose middle page fails
extraction yields the two-entry join `x\ny`, not the claimed one entry per
page (`x`, empty, `y`). -/
theorem c2_counterexample :
    read_file ⟨some "doc.pdf", [],
        .ok [PdfPage.ok (some "x"), PdfPage.err, PdfPage.ok (some "y")], .error "unused"⟩
      = wrapMarkers "PDF" "doc.pdf" "x\ny" ∧
    extract_pdf_texts [PdfPage.ok (some "x"), PdfPage.err, PdfPage.ok (some "y")] ≠
      extract_pdf_texts_claim [PdfPage.ok (some "x"), PdfPage.err, PdfPage.ok (some "y")] := by
  constructor <;> decide

/-- C2 (witness): the amended theorem at a one-page PDF. -/
theorem c2_witness :
    read_file ⟨some "doc.pdf", [], .ok [PdfPage.ok (some "x")], .error "unused"⟩
        = wrapMarkers "PDF" "doc.pdf"
            (String.intercalate "\n" (extract_pdf_texts [PdfPage.ok (some "x")])) ∧
      extract_pdf_texts [PdfPage.ok (some "x")]
        = [PdfPage.ok (some "x")].filterMap fun pg =>
            match pg with
            | PdfPage.ok t => some (t.getD "")
            | PdfPage.err => none :=
  c2_pdf_extraction ⟨some "doc.pdf", [], .ok [PdfPage.ok (some "x")], .error "unused"⟩
    [PdfPage.ok (some "x")] (by decide) rfl

/-- C3 (amended): the TXT branch decodes the raw bytes as UTF-8 dropping
(ignoring) undecodable byte sequences rather than failing, and wraps the
decoded text in BEGIN/END TXT markers naming the file; on fully valid
ASCII input the decode is the identity embedding. -/
theorem c3_txt_decode (f : UploadedFile) (hext : extOf f = ".txt") :
    read_file f = wrapMarkers "TXT" (pyName f) (utf8DecodeIgnore f.bytes) ∧
      ((∀ b ∈ f.bytes, b < 128) →
        utf8DecodeIgnore f.bytes = ⟨f.bytes.map Char.ofNat⟩) :=
  ⟨read_file_txt_eq f hext,
    fun h => congrArg String.mk (utf8Go_ascii [] f.bytes h)⟩

/-- C3 (counterexample): on the bytes `41 FF 42` the extractor produces
`AB` (the undecodable byte is dropped), not the `A�B` that decoding with
replacement — as the claim states — would produce. -/
theorem c3_counterexample :
    read_file ⟨some "a.txt", [65, 255, 66], .error "unused", .error "unused"⟩
        = wrapMarkers "TXT" "a.txt" "AB" ∧
      utf8DecodeReplaceSpec [65, 255, 66] = "A�B" ∧
      utf8DecodeIgnore [65, 255, 66] ≠ utf8DecodeReplaceSpec [65, 255, 66] := by
  refine ⟨?_, ?_, ?_⟩ <;> decide

/-- C3 (witness): the amended theorem at the bytes `41 FF 42`. -/
theorem c3_witness :
    read_file ⟨some "a.txt", [65, 255, 66], .error "unused", .error "unused"⟩
        = wrapMarkers "TXT" "a.txt" (utf8DecodeIgnore [65, 255, 66]) ∧
      ((∀ b ∈ [65, 255, 66], b < 128) →
        utf8DecodeIgnore [65, 255, 66] = ⟨[65, 255, 66].map Char.ofNat⟩) :=
  c3_txt_decode ⟨some "a.txt", [65, 255, 66], .error "unused", .error "unused"⟩ (by decide)

/-- C8: any upload whose (case-insensitively classified) extension is not
pdf, docx or txt yields exactly the bracketed skip notice containing the
original filename — no extracted content, no markers, no exception. -/
theorem c8_unsupported_skip (f : UploadedFile)
    (h : extOf f ≠ ".pdf" ∧ extOf f ≠ ".txt" ∧ extOf f ≠ ".docx") :
    read_file f = "\n[Skipped unsupported file: " ++ pyName f ++ "]\n" ∧
      ∃ pre post, read_file f = pre ++ pyName f ++ post := by
  have h1 : read_file f = "\n[Skipped unsupported file: " ++ pyName f ++ "]\n" := by
    simp only [read_file]
    rw [if_pos h]
  exact ⟨h1, "\n[Skipped unsupported file: ", "]\n", h1⟩

/-- C8 (witness): the skip notice for `image.png`. -/
theorem c8_witness :
    read_file ⟨some "image.png", [1, 2, 3], .error "unused", .error "unused"⟩
        = "\n[Skipped unsupported file: " ++ "image.png" ++ "]\n" ∧
      ∃ pre post,
        read_file ⟨some "image.png", [1, 2, 3], .error "unused", .error "unused"⟩
          = pre ++ "image.png" ++ post :=
  c8_unsupported_skip ⟨some "image.png", [1, 2, 3], .error "unused", .error "unused"⟩
    (by refine ⟨?_, ?_, ?_⟩ <;> decide)

theorem read_file_valid_block (f : UploadedFile) (hv : validUpload f) :
    ∃ kind body, (kind = "PDF" ∨ kind = "DOCX" ∨ kind = "TXT") ∧
      read_file f = wrapMarkers kind (pyName f) body := by
  rcases hv with ⟨hext, pgs, hp⟩ | ⟨hext, ps, hp⟩ | hext
  · exact ⟨"PDF", String.intercalate "\n" (extract_pdf_texts pgs), Or.inl rfl,
      read_file_pdf_eq f pgs hext hp⟩
  · exact ⟨"DOCX", String.intercalate "\n" ps, Or.inr (Or.inl rfl),
      read_file_docx_eq f ps hext hp⟩
  · exact ⟨"TXT", utf8DecodeIgnore f.bytes, Or.inr (Or.inr rfl),
      read_file_txt_eq f hext⟩

/-- C7: the corpus is the per-file extraction results joined in upload
order with blank-line separators, one block per uploaded document, and
every valid upload's block is wrapped in a matching BEGIN/END marker pair
naming the source file — so a batch of N valid documents contributes N
marker pairs in upload order. -/
theorem c7_marker_pairs (files : List UploadedFile) (hv : ∀ f ∈ files, validUpload f) :
    joined_corpus files = String.intercalate "\n\n" (files.map read_file) ∧
      (files.map read_file).length = files.length ∧
      ∀ f ∈ files, ∃ kind body, (kind = "PDF" ∨ kind = "DOCX" ∨ kind = "TXT") ∧
        read_file f = wrapMarkers kind (pyName f) body :=
  ⟨rfl, by simp, fun f hf => read_file_valid_block f (hv f hf)⟩

/-- C7 (witness): a two-document batch (one TXT, one PDF). -/
theorem c7_witness :
    joined_corpus [sampleTxt, ⟨some "doc.pdf", [], .ok [PdfPage.ok (some "x")], .error "unused"⟩]
        = String.intercalate "\n\n"
            (([sampleTxt, ⟨some "doc.pdf", [], .ok [PdfPage.ok (some "x")], .error "unused"⟩]).map
              read_file) ∧
      (([sampleTxt, ⟨some "doc.pdf", [], .ok [PdfPage.ok (some "x")], .error "unused"⟩]).map
          read_file).length
        = ([sampleTxt, ⟨some "doc.pdf", [], .ok [PdfPage.ok (some "x")], .error "unused"⟩]).length ∧
      ∀ f ∈ [sampleTxt, ⟨some "doc.pdf", [], .ok [PdfPage.ok (some "x")], .error "unused"⟩],
        ∃ kind body, (kind = "PDF" ∨ kind = "DOCX" ∨ kind = "TXT") ∧
          read_file f = wrapMarkers kind (pyName f) body :=
  c7_marker_pairs [sampleTxt, ⟨some "doc.pdf", [], .ok [PdfPage.ok (some "x")], .error "unused"⟩]
    (by
      intro f hf
      simp only [List.mem_cons, List.not_mem_nil, or_false] at hf
      rcases hf with rfl | rfl
      · exact Or.inr (Or.inr (by decide))
      · exact Or.inl ⟨by decide, [PdfPage.ok (some "x")], rfl⟩)

/-! ## The analyze pipeline -/

theorem len_le_dropWhile_append {α : Type} (p : α → Bool) (c : α) (post : List α)
    (hc : p c = false) :
    ∀ pre : List α, (c :: post).length ≤ ((pre ++ c :: post).dropWhile p).length := by
  intro pre
  induction pre with
  | nil =>
    rw [List.nil_append, List.dropWhile_cons_of_neg (by simp [hc])]
  | cons a pre ih =>
    rw [List.cons_append, List.dropWhile_cons]
    by_cases h : p a = true
    · rw [if_pos h]; exact ih
    · rw [if_neg h]
      simp only [List.length_cons, List.length_append]
      omega

/-- A string beginning with the 31-character sentinel still has at least
31 characters after stripping (its first and thirty-first characters are
not whitespace). -/
theorem strip_length_of_sentinel (s : String)
    (h : pyStartsWith s llmSentinel = true) : 31 ≤ (pyStrip s).length := by
  have hp : llmSentinel.data <+: s.data := by
    simpa [pyStartsWith] using h
  obtain ⟨t, ht⟩ := hp
  have hlen : (pyStrip s).length
      = ((s.data.dropWhile Char.isWhitespace).reverse.dropWhile Char.isWhitespace).length := by
    simp [pyStrip]
  rw [hlen]
  have h1 : s.data.dropWhile Char.isWhitespace = s.data := by
    rw [← ht]
    have h0 : llmSentinel.data = 'E' :: "RROR: LLM server not reachable".data := by decide
    rw [h0, List.cons_append, List.dropWhile_cons_of_neg (by decide)]
  rw [h1, ← ht, List.reverse_append]
  have h2 : llmSentinel.data.reverse = 'e' :: "lbahcaer ton revres MLL :RORRE".data := by
    decide
  rw [h2]
  have h3 := len_le_dropWhile_append Char.isWhitespace 'e'
    "lbahcaer ton revres MLL :RORRE".data (by decide) t.reverse
  have h4 : ('e' :: "lbahcaer ton revres MLL :RORRE".data).length = 31 := by decide
  omega

/-- C4: the pipeline fails with the service-unavailable reason when the
completion equals the unreachable sentinel, fails with the empty-response
reason when the stripped completion is shorter than 30 characters, and
succeeds at exactly 30 characters; both failures write no artifacts. -/
theorem c4_failure_gates (cw : Char → ℕ) (service : String → Except Unit String)
    (ts : String) (files : List UploadedFile) (result : String)
    (hne : files ≠ [])
    (hres : result = call_llama3 service (build_prompt_text (joined_corpus files))) :
    (result = llmSentinel →
        analyze cw service ts files = (.errorLLMDown, [])) ∧
      ((pyStrip result).length < 30 →
        analyze cw service ts files = (.errorEmpty, [])) ∧
      ((pyStrip result).length = 30 →
        analyze cw service ts files =
          (.ok ("case_report_" ++ ts)
              ("/download/" ++ ("case_report_" ++ ts) ++ ".txt")
              ("/download/" ++ ("case_report_" ++ ts) ++ ".pdf")
              (files.map fun f => f.filename?),
            [("case_report_" ++ ts ++ ".txt", .txt result),
             ("case_report_" ++ ts ++ ".pdf", .pdf (save_pdf cw result))])) := by
  have hempty : files.isEmpty = false := by
    cases files with
    | nil => exact absurd rfl hne
    | cons a l => rfl
  have han : analyze cw service ts files =
      (if pyStartsWith result llmSentinel then ((.errorLLMDown : AnalyzeResponse), [])
       else if (pyStrip result).length < 30 then ((.errorEmpty : AnalyzeResponse), [])
       else
        (.ok ("case_report_" ++ ts)
            ("/download/" ++ ("case_report_" ++ ts) ++ ".txt")
            ("/download/" ++ ("case_report_" ++ ts) ++ ".pdf")
            (files.map fun f => f.filename?),
          [("case_report_" ++ ts ++ ".txt", .txt result),
           ("case_report_" ++ ts ++ ".pdf", .pdf (save_pdf cw result))])) := by
    simp only [analyze, hempty, Bool.false_eq_true, if_false]
    rw [← hres]
  refine ⟨?_, ?_, ?_⟩
  · intro hsent
    rw [han, hsent, if_pos (by decide)]
  · intro hlt
    have hns : ¬ pyStartsWith result llmSentinel = true := by
      intro hb
      have := strip_length_of_sentinel result hb
      omega
    rw [han, if_neg hns, if_pos hlt]
  · intro heq
    have hns : ¬ pyStartsWith result llmSentinel = true := by
      intro hb
      have := strip_length_of_sentinel result hb
      omega
    rw [han, if_neg hns, if_neg (by omega)]

/-- C4 (witness): the three gates at a one-file batch — a service that
raises, a service answering `hi`, and a service answering exactly thirty
characters. -/
theorem c4_witness :
    analyze helveticaWidth (fun _ => Except.error ()) "20240101_120000" [sampleTxt]
        = (.errorLLMDown, []) ∧
      analyze helveticaWidth (fun _ => Except.ok "hi") "20240101_120000" [sampleTxt]
        = (.errorEmpty, []) ∧
      analyze helveticaWidth (fun _ => Except.ok thirtyChars) "20240101_120000" [sampleTxt]
        = (.ok ("case_report_" ++ "20240101_120000")
            ("/download/" ++ ("case_report_" ++ "20240101_120000") ++ ".txt")
            ("/download/" ++ ("case_report_" ++ "20240101_120000") ++ ".pdf")
            ([sampleTxt].map fun f => f.filename?),
          [("case_report_" ++ "20240101_120000" ++ ".txt", .txt thirtyChars),
           ("case_report_" ++ "20240101_120000" ++ ".pdf",
            .pdf (save_pdf helveticaWidth thirtyChars))]) :=
  ⟨(c4_failure_gates helveticaWidth (fun _ => Except.error ()) "20240101_120000"
      [sampleTxt] llmSentinel (by simp) rfl).1 rfl,
    (c4_failure_gates helveticaWidth (fun _ => Except.ok "hi") "20240101_120000"
      [sampleTxt] "hi" (by simp) rfl).2.1 (by decide),
    (c4_failure_gates helveticaWidth (fun _ => Except.ok thirtyChars) "20240101_120000"
      [sampleTxt] thirtyChars (by simp) rfl).2.2 (by decide)⟩

/-- C10: the failure sentinel is detected in-band by a prefix test, so a
genuine completion whose stripped text begins with the sentinel string is
reported as service-unavailable with no artifacts written, and the text
artifact of a successful run never begins with the sentinel. -/
theorem c10_sentinel_in_band (cw : Char → ℕ) (service : String → Except Unit String)
    (ts : String) (files : List UploadedFile) (hne : files ≠ []) :
    (∀ content, service (build_prompt_text (joined_corpus files)) = .ok content →
        pyStartsWith (pyStrip content) llmSentinel = true →
        analyze cw service ts files = (.errorLLMDown, [])) ∧
      (∀ name s, (name, Artifact.txt s) ∈ (analyze cw service ts files).2 →
        pyStartsWith s llmSentinel = false) := by
  have hempty : files.isEmpty = false := by
    cases files with
    | nil => exact absurd rfl hne
    | cons a l => rfl
  constructor
  · intro content hsvc hpre
    have hcall : call_llama3 service (build_prompt_text (joined_corpus files))
        = pyStrip content := by
      simp [call_llama3, hsvc]
    simp only [analyze, hempty, Bool.false_eq_true, if_false]
    rw [hcall, if_pos hpre]
  · intro name s hmem
    revert hmem
    simp only [analyze, hempty, Bool.false_eq_true, if_false]
    by_cases h1 : pyStartsWith (call_llama3 service (build_prompt_text (joined_corpus files)))
        llmSentinel = true
    · rw [if_pos h1]
      intro hmem
      simp at hmem
    · rw [if_neg h1]
      by_cases h2 : (pyStrip (call_llama3 service
          (build_prompt_text (joined_corpus files)))).length < 30
      · rw [if_pos h2]
        intro hmem
        simp at hmem
      · rw [if_neg h2]
        intro hmem
        simp only [List.mem_cons, List.not_mem_nil, or_false, List.mem_singleton] at hmem
        rcases hmem with hmem | hmem
        · have hs : Artifact.txt s = Artifact.txt (call_llama3 service
              (build_prompt_text (joined_corpus files))) := congrArg Prod.snd hmem
          injection hs with hs
          rw [hs]
          exact Bool.eq_false_iff.2 h1
        · have hs : Artifact.txt s = Artifact.pdf (save_pdf cw (call_llama3 service
              (build_prompt_text (joined_corpus files)))) := congrArg Prod.snd hmem
          exact Artifact.noConfusion hs

/-- C10 (witness): a reachable service that genuinely answers a text
beginning with the sentinel string is reported as service-unavailable, and
the successful thirty-character run's text artifact does not begin with
the sentinel. -/
theorem c10_witness :
    analyze helveticaWidth
        (fun _ => Except.ok "ERROR: LLM server not reachable at 5pm")
        "20240101_120000" [sampleTxt] = (.errorLLMDown, []) ∧
      ∀ name s,
        (name, Artifact.txt s) ∈
          (analyze helveticaWidth (fun _ => Except.ok thirtyChars)
            "20240101_120000" [sampleTxt]).2 →
        pyStartsWith s llmSentinel = false :=
  ⟨(c10_sentinel_in_band helveticaWidth
      (fun _ => Except.ok "ERROR: LLM server not reachable at 5pm")
      "20240101_120000" [sampleTxt] (by simp)).1
      "ERROR: LLM server not reachable at 5pm" rfl (by decide),
    (c10_sentinel_in_band helveticaWidth (fun _ => Except.ok thirtyChars)
      "20240101_120000" [sampleTxt] (by simp)).2⟩

/-! ## The download endpoint -/

theorem splitOnChar_no_sep (sep : Char) :
    ∀ l : List Char, (∀ c ∈ l, c ≠ sep) → splitOnChar sep l = [l]
  | [], _ => rfl
  | c :: rest, h => by
    have hr := splitOnChar_no_sep sep rest (fun x hx => h x (by simp [hx]))
    have hc : ¬ c = sep := h c (by simp)
    show (match splitOnChar sep rest with
      | [] => [[]]
      | h :: t => if c = sep then [] :: h :: t else (c :: h) :: t) = [c :: rest]
    rw [hr]
    simp [hc]

theorem pySplit_no_sep (sep : Char) (s : String) (h : ∀ c ∈ s.data, c ≠ sep) :
    pySplit sep s = [s] := by
  simp only [pySplit, splitOnChar_no_sep sep s.data h, List.map_cons, List.map_nil]

theorem pyStartsWith_slash_false (fname : String) (hne : fname ≠ "")
    (hsep : ∀ c ∈ fname.data, c ≠ '/') : pyStartsWith fname "/" = false := by
  obtain ⟨l⟩ := fname
  cases l with
  | nil => exact absurd rfl hne
  | cons c rest =>
    have hc : c ≠ '/' := hsep c (by simp)
    show (("/" : String).data.isPrefixOf (c :: rest)) = false
    have h0 : ("/" : String).data = ['/'] := rfl
    rw [h0]
    simp [List.isPrefixOf]
    intro h
    exact absurd h.symm hc

theorem normalizePath_append (l1 l2 : List String) :
    normalizePath (l1 ++ l2) = l2.foldl
      (fun acc c =>
        if c = "" ∨ c = "." then acc
        else if c = ".." then acc.dropLast
        else acc ++ [c])
      (normalizePath l1) := by
  simp [normalizePath, List.foldl_append]

/-- C9: with a slash-free nonempty requested name (the router passes a
single path segment), a normalized store directory whose existing files
never coincide with the directory or an ancestor of it, the download
operation serves only existing files inside the store directory, and any
name that does not resolve to an existing file there yields the not-found
result — never an exception. -/
theorem c9_download_safe (fs : List (List String)) (store : List String) (fname : String)
    (hsep : ∀ c ∈ fname.data, c ≠ '/') (hne : fname ≠ "")
    (hstore : normalizePath store = store)
    (hanc : ∀ p ∈ fs, ¬ p <+: store) :
    (∀ p, download fs store fname = .found p → p ∈ fs ∧ store <+: p) ∧
      (normalizePath (store ++ [fname]) ∉ fs →
        download fs store fname = .notFound) := by
  have hsplit : pySplit '/' fname = [fname] := pySplit_no_sep '/' fname hsep
  have hsw : pyStartsWith fname "/" = false := pyStartsWith_slash_false fname hne hsep
  have hpath : (if pyStartsWith fname "/" = true then pySplit '/' fname
      else store ++ pySplit '/' fname) = store ++ [fname] := by
    rw [hsw]
    simp [hsplit]
  have hres : normalizePath (store ++ [fname]) =
      (if fname = "" ∨ fname = "." then store
       else if fname = ".." then store.dropLast
       else store ++ [fname]) := by
    rw [normalizePath_append]
    simp only [List.foldl_cons, List.foldl_nil, hstore]
  constructor
  · intro p hp
    simp only [download, hpath] at hp
    by_cases hmem : normalizePath (store ++ [fname]) ∈ fs
    · rw [if_pos hmem] at hp
      injection hp with hp
      subst hp
      refine ⟨hmem, ?_⟩
      rw [hres] at hmem ⊢
      by_cases h1 : fname = "" ∨ fname = "."
      · rw [if_pos h1] at hmem
        exact absurd (List.prefix_refl store) (hanc store hmem)
      · rw [if_neg h1] at hmem ⊢
        by_cases h2 : fname = ".."
        · rw [if_pos h2] at hmem
          exact absurd ( List.dropLast_prefix store) (hanc _ hmem)
        · rw [if_neg h2]
          exact ⟨[fname], rfl⟩
    · rw [if_neg hmem] at hp
      exact DownloadResult.noConfusion hp
  · intro hnot
    simp only [download, hpath]
    rw [if_neg hnot]

/-- C9 (witness): serving an existing report file from the store, with the
resolved path inside the store directory. -/
theorem c9_witness :
    ["srv", "outputs", "case_report_1.txt"]
        ∈ [["srv", "outputs", "case_report_1.txt"]] ∧
      ["srv", "outputs"] <+: ["srv", "outputs", "case_report_1.txt"] :=
  (c9_download_safe [["srv", "outputs", "case_report_1.txt"]] ["srv", "outputs"]
      "case_report_1.txt" (by decide) (by decide) (by decide)
      (by
        intro p hp
        simp only [List.mem_singleton] at hp
        subst hp
        intro hpre
        have := hpre.length_le
        simp at this)).1
    ["srv", "outputs", "case_report_1.txt"] (by decide)

end CaseBrief
